import Mathlib

/-!
Shallow embedding of the `security_dataset` ingestion tool.

The embedding follows the Python sources:
* `src/parsers/index_parser.py`  — `IndexParser.parse_file` and
  `IndexParser._determine_category`;
* `src/database/db_manager.py`   — `DatabaseManager.add_file`,
  `add_annotation`, `add_content`;
* `src/utils/stats_analyzer.py`  — `StatsAnalyzer.add_entry`;
* `tools/analyze_coverage.py`    — `CoverageAnalyzer.load_all_files`,
  `process_index_file`, `_determine_category`, `generate_report`.

File contents are passed in as strings (an `Except` value models a read
that may fail), paths are passed as their rendering plus their list of
segments (`pathlib.Path.parts`), and the SQLite tables are lists of rows
with a monotone rowid counter.

Python string methods are re-implemented structurally over `List Char`
(`Py.strip`, `Py.split`, …) so that every definition evaluates by kernel
reduction on concrete inputs.
-/

namespace Py

/-- The ASCII whitespace recognized by Python's `str.strip` and `\s`. -/
def isSpace (c : Char) : Bool :=
  c == ' ' || c == '\t' || c == '\n' || c == '\r' || c == '\x0b' || c == '\x0c'

/-- Python `str.strip()`: remove leading and trailing whitespace. -/
def strip (s : String) : String :=
  ⟨(((s.data.dropWhile isSpace).reverse.dropWhile isSpace).reverse)⟩

/-- Leading-whitespace removal (the greedy `\s*` of a regex whose next
token is not whitespace). -/
def lstrip (s : String) : String :=
  ⟨s.data.dropWhile isSpace⟩

/-- Python `str.startswith(pre)`. -/
def startsWith (s pre : String) : Bool :=
  pre.data.isPrefixOf s.data

/-- Drop the first `n` characters of a string (slicing `s[n:]`). -/
def dropChars (s : String) (n : Nat) : String :=
  ⟨s.data.drop n⟩

/-- Emptiness test `s == ""`. -/
def isEmptyStr (s : String) : Bool :=
  s.data.isEmpty

/-- Python `str.split(c)` for a single-character separator. -/
def splitCharList (c : Char) : List Char → List (List Char)
  | [] => [[]]
  | x :: rest =>
    let r := splitCharList c rest
    if x == c then [] :: r
    else
      match r with
      | [] => [[x]]
      | g :: gs => (x :: g) :: gs

/-- Python `str.split(c)` for a single-character separator, on strings. -/
def split (c : Char) (s : String) : List String :=
  (splitCharList c s.data).map (fun l => ⟨l⟩)

/-- Python `str.split('///')`: the block separator of the index-file grammar
(leftmost, non-overlapping). -/
def splitSlashesList : List Char → List (List Char)
  | '/' :: '/' :: '/' :: rest => [] :: splitSlashesList rest
  | x :: rest =>
    match splitSlashesList rest with
    | [] => [[x]]
    | g :: gs => (x :: g) :: gs
  | [] => [[]]

/-- The split `content.split('///')` on strings. -/
def splitSlashes (s : String) : List String :=
  (splitSlashesList s.data).map (fun l => ⟨l⟩)

/-- Whether `sub` occurs contiguously inside `l` (Python's `sub in s`). -/
def containsSubList (sub : List Char) : List Char → Bool
  | [] => sub.isEmpty
  | x :: rest => sub.isPrefixOf (x :: rest) || containsSubList sub rest

/-- Python's substring test `sub in s`. -/
def containsSub (s sub : String) : Bool :=
  containsSubList sub.data s.data

end Py

namespace SecurityDataset

/-! ## Parser: line matchers (`index_parser.py`, `parse_file`) -/

/-- The regex `re.match(r'File Name:\s*(.+)', line)` followed by `.group(1).strip()`.
Lines handed to the matchers are already stripped, so the greedy `\s*`
plus the non-empty `(.+)` amount to trimming the text after the prefix
and requiring the result to be non-empty. -/
def matchFileName (line : String) : Option String :=
  if Py.startsWith line "File Name:" then
    let rest := Py.strip (Py.dropChars line 10)
    if Py.isEmptyStr rest then none else some rest
  else none

/-- One alternative of `re.match(r'(MD5|SHA-256)\s*\|\s*(.+)', line)`:
the algorithm name, optional whitespace, a pipe, then the value. -/
def matchHashAlgo (algo line : String) : Option (String × String) :=
  if Py.startsWith line algo then
    let rest := Py.lstrip (Py.dropChars line algo.data.length)
    if Py.startsWith rest "|" then
      let v := Py.strip (Py.dropChars rest 1)
      if Py.isEmptyStr v then none else some (algo, v)
    else none
  else none

/-- The regex `re.match(r'(MD5|SHA-256)\s*\|\s*(.+)', line)`, trying `MD5` first. -/
def matchHash (line : String) : Option (String × String) :=
  (matchHashAlgo "MD5" line).orElse (fun _ => matchHashAlgo "SHA-256" line)

/-- The regex `re.match(r'Authored by\s+(.+)', line)` followed by `.group(1).strip()`:
the prefix, at least one whitespace character, then a non-empty rest. -/
def matchAuthor (line : String) : Option String :=
  if Py.startsWith line "Authored by" then
    let rest := Py.dropChars line 11
    match rest.data with
    | [] => none
    | c :: _ =>
      if Py.isSpace c then
        let v := Py.strip rest
        if Py.isEmptyStr v then none else some v
      else none
  else none

/-- The comprehension `[t.strip() for t in s.split(',') if t.strip()]`. -/
def splitClean (s : String) : List String :=
  ((Py.split ',' s).map Py.strip).filter (fun t => !Py.isEmptyStr t)

/-- The lookup `line.split('|')[1]` (total: defaults to `""`; the guard that the line
starts with `"tags |"`/`"systems |"` guarantees the part exists). -/
def pipeField (line : String) : String :=
  (Py.split '|' line).getD 1 ""

/-- Python-dict insertion: update the value if the key is present,
otherwise append the pair. -/
def dictInsert (hs : List (String × String)) (k v : String) : List (String × String) :=
  match hs with
  | [] => [(k, v)]
  | p :: rest => if p.1 = k then (k, v) :: rest else p :: dictInsert rest k v

/-! ## Parser: per-entry state -/

/-- The mutable `current_entry` dictionary of `parse_file`, before the
description is joined: `filename` is absent until a valid
`File Name:` line is seen. -/
structure EntryState where
  filename : Option String
  tags : List String
  systems : List String
  hashes : List (String × String)
  author : Option String
  descLines : List String
  deriving Repr, DecidableEq

def emptyEntryState : EntryState :=
  { filename := none, tags := [], systems := [], hashes := [], author := none, descLines := [] }

/-- One iteration of the line loop in `parse_file`: the dispatch order is
filename, `Description:`, `tags |`, `systems |`, hash, `Authored by`,
then description collection. Returns the updated entry together with the
updated `in_description` flag. -/
def processLine (st : EntryState) (inDesc : Bool) (rawLine : String) : EntryState × Bool :=
  let line := Py.strip rawLine
  if Py.isEmptyStr line then (st, inDesc)
  else
    match matchFileName line with
    | some fn =>
      if fn ≠ ":" then ({ st with filename := some fn }, inDesc) else (st, inDesc)
    | none =>
      if line = "Description:" then (st, true)
      else if Py.startsWith line "tags |" then
        ({ st with tags := splitClean (Py.strip (pipeField line)) }, false)
      else if Py.startsWith line "systems |" then
        ({ st with systems := splitClean (Py.strip (pipeField line)) }, false)
      else
        match matchHash line with
        | some (k, v) => ({ st with hashes := dictInsert st.hashes k v }, false)
        | none =>
          match matchAuthor line with
          | some a => ({ st with author := some a }, false)
          | none =>
            if inDesc then ({ st with descLines := st.descLines ++ [line] }, inDesc)
            else (st, inDesc)

/-- The join `' '.join(description).strip()`, empty replaced by the placeholder. -/
def finalizeDescription (ls : List String) : String :=
  let d := Py.strip (" ".intercalate ls)
  if Py.isEmptyStr d then "No description available" else d

/-! ## Category classification (`IndexParser._determine_category`) -/

/-- The ordered `categories` table of `IndexParser._determine_category`:
category name paired with its list of exact path-segment markers. -/
def categoriesTable : List (String × List String) :=
  [("exploit", ["exploits"]), ("shellcode", ["shellcodes"]),
   ("tool", ["util"]), ("doc", ["Doc"]), ("systemerror", ["systemerror"])]

/-- The inner loop of `_determine_category`: first rule (in table order)
whose marker list contains the path segment exactly. -/
def segCategory (part : String) : Option String :=
  (categoriesTable.find? (fun rule => rule.2.contains part)).map (fun rule => rule.1)

/-- The method `IndexParser._determine_category`, over the path's segments
(`self.source_path.parts`): first segment with a matching rule wins,
no match gives `"unknown"`. -/
def determine_category : List String → String
  | [] => "unknown"
  | p :: rest =>
    match segCategory p with
    | some c => c
    | none => determine_category rest

/-! ## Parser: whole-file parse (`IndexParser.parse_file`) -/

/-- A finished entry as appended to `results` by `parse_file`
(the nested `metadata` dictionary is flattened into the record). -/
structure ParsedEntry where
  filename : String
  description : String
  tags : List String
  systems : List String
  hashes : List (String × String)
  author : Option String
  category : String
  source_index : String
  deriving Repr, DecidableEq

structure ParseResult where
  entries : List ParsedEntry
  errors : List String
  deriving Repr, DecidableEq

/-- Loop body of `parse_file` over one `entry_text` block: blank blocks
are skipped; otherwise a fresh entry is built (while `in_description`
carries over from the previous block), its lines are processed, and the
entry is kept only when it has a filename. -/
def processBlock (pathParts : List String) (pathStr : String)
    (acc : List ParsedEntry × List String × Bool) (entryText : String) :
    List ParsedEntry × List String × Bool :=
  let (res, errs, inDesc) := acc
  if Py.isEmptyStr (Py.strip entryText) then (res, errs, inDesc)
  else
    let cat := determine_category pathParts
    let (st, inDesc') :=
      (Py.split '\n' (Py.strip entryText)).foldl
        (fun (p : EntryState × Bool) line => processLine p.1 p.2 line)
        (emptyEntryState, inDesc)
    let desc := finalizeDescription st.descLines
    match st.filename with
    | some fn =>
      (res ++ [{ filename := fn, description := desc, tags := st.tags,
                 systems := st.systems, hashes := st.hashes, author := st.author,
                 category := cat, source_index := pathStr }], errs, inDesc')
    | none =>
      (res, errs ++ ["Пропущена запись без имени файла в " ++ pathStr], inDesc')

/-- The method `IndexParser.parse_file`.  `readResult` models the `open`/`read` call:
`Except.error e` is a raised I/O or decoding exception (caught and turned
into a single error with no entries); `Except.ok content` is the file's
text, which is split on `"///"` and folded block by block with
`in_description` initially `false`. -/
def parse_file (readResult : Except String String)
    (pathStr : String) (pathParts : List String) : ParseResult :=
  match readResult with
  | .error e =>
    { entries := [], errors := ["Ошибка при чтении файла " ++ pathStr ++ ": " ++ e] }
  | .ok content =>
    let (res, errs, _) :=
      (Py.splitSlashes content).foldl (processBlock pathParts pathStr) ([], [], false)
    { entries := res, errors := errs }

/-! ## JSON serialization (`json.dumps`, used by `add_content`) -/

/-- A JSON document, the value space of the `metadata` argument of
`DatabaseManager.add_content`. -/
inductive Json where
  | null
  | bool (b : Bool)
  | num (n : Int)
  | str (s : String)
  | arr (elems : List Json)
  | obj (fields : List (String × Json))

/-- JSON string escaping for the characters `json.dumps` always escapes. -/
def escChar (c : Char) : String :=
  if c == '"' then "\\\""
  else if c == '\\' then "\\\\"
  else if c == '\n' then "\\n"
  else if c == '\t' then "\\t"
  else if c == '\r' then "\\r"
  else ⟨[c]⟩

def escape (s : String) : String :=
  String.join (s.data.map escChar)

mutual

/-- Python `json.dumps` with its default separators `', '` and `': '`. -/
def Json.dumps : Json → String
  | .null => "null"
  | .bool true => "true"
  | .bool false => "false"
  | .num n => toString n
  | .str s => "\"" ++ escape s ++ "\""
  | .arr es => "[" ++ ", ".intercalate (Json.dumpsList es) ++ "]"
  | .obj fs => "\x7b" ++ ", ".intercalate (Json.dumpsFields fs) ++ "\x7d"

def Json.dumpsList : List Json → List String
  | [] => []
  | e :: es => Json.dumps e :: Json.dumpsList es

def Json.dumpsFields : List (String × Json) → List String
  | [] => []
  | f :: fs => ("\"" ++ escape f.1 ++ "\": " ++ Json.dumps f.2) :: Json.dumpsFields fs

end

/-! ## Store (`db_manager.py`)

The three SQLite tables are lists of rows ordered by rowid, each with a
monotone rowid sequence (`INTEGER PRIMARY KEY` assigns fresh ids to
inserted rows; `cursor.lastrowid` is the id just assigned). -/

/-- The column values bound by `add_file` (`id` is auto-assigned). -/
structure FileData where
  filename : String
  full_path : String
  file_type : Option String
  size : Option Int
  modified_date : Option String
  category : Option String
  processed : Bool
  deriving Repr, DecidableEq

structure FileRow where
  id : Nat
  data : FileData
  deriving Repr, DecidableEq

/-- The column values bound by `add_annotation`. -/
structure AnnData where
  file_id : Nat
  annotation_date : Option String
  description : String
  source_index : String
  deriving Repr, DecidableEq

structure AnnRow where
  id : Nat
  data : AnnData
  deriving Repr, DecidableEq

/-- The argument of `add_content`: `metadata` is still a structured
document at the call boundary. -/
structure ContentData where
  file_id : Nat
  raw_text : Option String
  cleaned_text : Option String
  metadata : Json

/-- A row of the `content` table: `metadata` has been serialized. -/
structure StoredContent where
  file_id : Nat
  raw_text : Option String
  cleaned_text : Option String
  metadata : String
  deriving Repr, DecidableEq

structure ContentRow where
  id : Nat
  data : StoredContent
  deriving Repr, DecidableEq

structure DB where
  files : List FileRow
  annotations : List AnnRow
  content : List ContentRow
  filesSeq : Nat
  annotationsSeq : Nat
  contentSeq : Nat

def DB.empty : DB :=
  { files := [], annotations := [], content := [],
    filesSeq := 1, annotationsSeq := 1, contentSeq := 1 }

/-- The method `DatabaseManager.add_file`: `INSERT OR IGNORE` against
`UNIQUE(full_path)`; when the insert is ignored (`rowcount == 0`), a
`SELECT id FROM files WHERE full_path = ?` returns the existing id,
otherwise `lastrowid` is returned. -/
def add_file (db : DB) (d : FileData) : Nat × DB :=
  match db.files.find? (fun r => r.data.full_path == d.full_path) with
  | some r => (r.id, db)
  | none =>
    let row : FileRow := { id := db.filesSeq, data := d }
    (db.filesSeq, { db with files := db.files ++ [row], filesSeq := db.filesSeq + 1 })

/-- The `WHERE file_id = ? AND source_index = ?` filter of
`add_annotation`. -/
def annPred (fid : Nat) (si : String) : AnnRow → Bool :=
  fun r => r.data.file_id == fid && r.data.source_index == si

/-- The method `DatabaseManager.add_annotation`: `SELECT id … WHERE file_id = ? AND
source_index = ?` first; if a row exists its id is returned and nothing
is written, otherwise the row is inserted and `lastrowid` returned. -/
def add_annotation (db : DB) (d : AnnData) : Nat × DB :=
  match db.annotations.find? (annPred d.file_id d.source_index) with
  | some r => (r.id, db)
  | none =>
    let row : AnnRow := { id := db.annotationsSeq, data := d }
    (db.annotationsSeq,
     { db with annotations := db.annotations ++ [row],
               annotationsSeq := db.annotationsSeq + 1 })

/-- The serialization step of `add_content`:
`content_data['metadata'] = json.dumps(content_data['metadata'])`. -/
def contentStored (d : ContentData) : StoredContent :=
  { file_id := d.file_id, raw_text := d.raw_text,
    cleaned_text := d.cleaned_text, metadata := Json.dumps d.metadata }

/-- The method `DatabaseManager.add_content`: `INSERT OR REPLACE` against
`UNIQUE(file_id)` — any conflicting row is deleted and the fresh row is
inserted with a new rowid, which is returned. -/
def add_content (db : DB) (d : ContentData) : Nat × DB :=
  let row : ContentRow := { id := db.contentSeq, data := contentStored d }
  (db.contentSeq,
   { db with
       content := (db.content.filter (fun r => !(r.data.file_id == d.file_id))) ++ [row],
       contentSeq := db.contentSeq + 1 })

/-! ## Stats Aggregator (`stats_analyzer.py`) -/

/-- Python `Counter`/dict as an insertion-ordered association list. -/
def bump (c : List (String × Nat)) (k : String) : List (String × Nat) :=
  match c with
  | [] => [(k, 1)]
  | p :: rest => if p.1 = k then (p.1, p.2 + 1) :: rest else p :: bump rest k

def counterTotal (c : List (String × Nat)) : Nat :=
  (c.map Prod.snd).sum

/-- Python `Counter` lookup: a missing key counts as `0`. -/
def counterGet (c : List (String × Nat)) (k : String) : Nat :=
  match c with
  | [] => 0
  | p :: rest => if p.1 = k then p.2 else counterGet rest k

/-- The `metadata` sub-dictionary as `add_entry` sees it: each field is
`none` when the key is absent, `some none` when present with value
`None`, `some (some v)` when present with a string. -/
structure StatsMeta where
  category : Option (Option String)
  tags : Option (List String)
  systems : Option (List String)
  author : Option (Option String)
  deriving Repr, DecidableEq

/-- An entry dictionary as `add_entry` sees it (`'metadata' in entry`,
`'filename' in entry` are key-presence tests). -/
structure StatsEntry where
  metadata : Option StatsMeta
  filename : Option String
  deriving Repr, DecidableEq

structure Stats where
  total_entries : Nat
  categories : List (String × Nat)
  tags : List (String × Nat)
  systems : List (String × Nat)
  file_types : List (String × Nat)
  authors : List (String × Nat)
  errors : List String
  deriving Repr, DecidableEq

def initStats : Stats :=
  { total_entries := 0, categories := [], tags := [], systems := [],
    file_types := [], authors := [], errors := [] }

/-- The idiom `value or 'unknown'`: Python falsy values (`None`, `''`) become
`"unknown"`. -/
def orUnknown (v : Option String) : String :=
  match v with
  | none => "unknown"
  | some s => if Py.isEmptyStr s then "unknown" else s

/-- Python `pathlib.Path(p).name`: the last non-empty `/`-separated component. -/
def pathName (s : String) : String :=
  (((Py.split '/' s).filter (fun t => !Py.isEmptyStr t)).getLast?).getD ""

/-- Python `pathlib.Path(p).suffix`: `name[i:]` for `i = name.rfind('.')` when
`0 < i < len(name) - 1`, else `''`. -/
def pySuffix (p : String) : String :=
  let name := (pathName p).data
  let after := (name.reverse.takeWhile (fun c => !(c == '.'))).reverse
  if after.length + 1 < name.length ∧ 0 < after.length then ⟨'.' :: after⟩ else ""

/-- The expression `Path(filename).suffix.lstrip('.') or 'no_extension'`. -/
def extBucket (filename : String) : String :=
  let e : String := ⟨(pySuffix filename).data.dropWhile (fun c => c == '.')⟩
  if Py.isEmptyStr e then "no_extension" else e

/-- The method `StatsAnalyzer.add_entry`: bump `total_entries`, then the category,
tag, system, file-type and author counters, each guarded by the presence
of the corresponding dictionary key. -/
def add_entry (st : Stats) (e : StatsEntry) : Stats :=
  let st1 := { st with total_entries := st.total_entries + 1 }
  let st2 :=
    match e.metadata with
    | some m =>
      match m.category with
      | some v => { st1 with categories := bump st1.categories (orUnknown v) }
      | none => st1
    | none => st1
  let st3 :=
    match e.metadata with
    | some m =>
      match m.tags with
      | some ts =>
        { st2 with tags := ts.foldl (fun c t => if !Py.isEmptyStr t then bump c t else c) st2.tags }
      | none => st2
    | none => st2
  let st4 :=
    match e.metadata with
    | some m =>
      match m.systems with
      | some ss =>
        { st3 with systems := ss.foldl (fun c t => if !Py.isEmptyStr t then bump c t else c) st3.systems }
      | none => st3
    | none => st3
  let st5 :=
    match e.filename with
    | some fn => { st4 with file_types := bump st4.file_types (extBucket fn) }
    | none => st4
  match e.metadata with
  | some m =>
    match m.author with
    | some v => { st5 with authors := bump st5.authors (orUnknown v) }
    | none => st5
  | none => st5

/-! ## Coverage Analyzer (`tools/analyze_coverage.py`)

Only the state that the claims concern is modelled: the `all_files` and
`indexed_files` sets (as insertion-ordered duplicate-free lists) and the
per-category counter.  The extension/top-level-directory frequency
tables built by `load_all_files` feed only the report's top-10 listings
and are not claimed about. -/

structure CoverageState where
  all_files : List String
  indexed_files : List String
  categories : List (String × Nat)
  deriving Repr, DecidableEq

def initCoverage : CoverageState :=
  { all_files := [], indexed_files := [], categories := [] }

/-- Python `set.add`. -/
def setAdd (s : List String) (x : String) : List String :=
  if x ∈ s then s else s ++ [x]

/-- The method `CoverageAnalyzer.load_all_files`: each manifest line is stripped and,
when non-empty, added to the `all_files` set. -/
def load_all_files (st : CoverageState) (lines : List String) : CoverageState :=
  { st with
      all_files := lines.foldl
        (fun s line =>
          let fp := Py.strip line
          if Py.isEmptyStr fp then s else setAdd s fp)
        st.all_files }

/-- The `categories` dict of `CoverageAnalyzer._determine_category`:
marker paired with the category it yields.  Unlike the parser's table the
match is `marker in part` (substring) and `systemerror` maps to
`"error"`. -/
def covCategoriesTable : List (String × String) :=
  [("exploits", "exploit"), ("shellcodes", "shellcode"),
   ("util", "tool"), ("Doc", "doc"), ("systemerror", "error")]

def covSegCategory (part : String) : Option String :=
  (covCategoriesTable.find? (fun rule => Py.containsSub part rule.1)).map (fun rule => rule.2)

/-- The method `CoverageAnalyzer._determine_category` over the path's segments. -/
def cov_determine_category : List String → String
  | [] => "unknown"
  | p :: rest =>
    match covSegCategory p with
    | some c => c
    | none => cov_determine_category rest

/-- The line scan of `process_index_file`: the first `File Name:` line
whose value (`line.split(':', 1)[1].strip()`) is non-empty wins. -/
def covFindFileName : List String → Option String
  | [] => none
  | line :: rest =>
    if Py.startsWith (Py.strip line) "File Name:" then
      let filename := Py.strip (":".intercalate ((Py.split ':' line).drop 1))
      if Py.isEmptyStr filename then covFindFileName rest else some filename
    else covFindFileName rest

/-- The method `CoverageAnalyzer.process_index_file`: classify the index file's path
once, then for each non-blank `///`-block record the first non-empty
`File Name:` value into `indexed_files` and bump the category counter. -/
def process_index_file (st : CoverageState) (pathParts : List String) (content : String) :
    CoverageState :=
  let category := cov_determine_category pathParts
  (Py.splitSlashes content).foldl
    (fun st entry =>
      if Py.isEmptyStr (Py.strip entry) then st
      else
        match covFindFileName (Py.split '\n' entry) with
        | some filename =>
          { st with indexed_files := setAdd st.indexed_files filename,
                    categories := bump st.categories category }
        | none => st)
    st

/-- The `summary` part of the report of `generate_report`. -/
structure CoverageSummary where
  total_files : Nat
  indexed_files : Nat
  coverage_percent : ℚ
  missing_files : Int
  deriving Repr, DecidableEq

/-- The method `CoverageAnalyzer.generate_report` (summary fields):
`coverage = indexed / total * 100 if total > 0 else 0`,
`missing = total - indexed`. -/
def generate_report (st : CoverageState) : CoverageSummary :=
  let total := st.all_files.length
  let indexed := st.indexed_files.length
  { total_files := total,
    indexed_files := indexed,
    coverage_percent := if 0 < total then (indexed : ℚ) / (total : ℚ) * 100 else 0,
    missing_files := (total : Int) - (indexed : Int) }

/-! ## Helper lemmas -/

theorem find?_append_none {α : Type} {p : α → Bool} {l₁ : List α}
    (h : l₁.find? p = none) (l₂ : List α) : (l₁ ++ l₂).find? p = l₂.find? p := by
  induction l₁ with
  | nil => rfl
  | cons a t ih =>
    rw [List.find?_cons] at h
    cases hpa : p a with
    | true => rw [hpa] at h; exact absurd h (by simp)
    | false =>
      rw [hpa] at h
      simpa [List.find?_cons, hpa] using ih h

theorem countP_le_one_find?_unique {α : Type} {p : α → Bool} {l : List α}
    (hle : l.countP p ≤ 1) {r r' : α} (hmem : r ∈ l) (hr : p r = true)
    (hfind : l.find? p = some r') : r = r' := by
  induction l with
  | nil => cases hmem
  | cons a t ih =>
    rw [List.find?_cons] at hfind
    rcases List.mem_cons.mp hmem with heq | hmemt
    · subst heq
      rw [hr] at hfind
      simpa using hfind
    · cases hpa : p a with
      | true =>
        rw [hpa] at hfind
        exfalso
        have hpos : 0 < t.countP p := List.countP_pos_iff.mpr ⟨r, hmemt, hr⟩
        have hc : (a :: t).countP p = t.countP p + 1 := by
          simp [List.countP_cons, hpa]
        omega
      | false =>
        rw [hpa] at hfind
        exact ih (by simpa [List.countP_cons, hpa] using hle) hmemt hfind

/-! ## Claims about the Store -/

/-- The `UNIQUE(full_path)` schema constraint on the `files` table:
at most one row per `full_path`. -/
def FilesWF (db : DB) : Prop :=
  ∀ path : String, db.files.countP (fun r => r.data.full_path == path) ≤ 1

/-- The at-most-one-row-per-`(file_id, source_index)` invariant of the
`annotations` table. -/
def AnnWF (db : DB) : Prop :=
  ∀ (fid : Nat) (si : String), db.annotations.countP (annPred fid si) ≤ 1

/-- C1: on any store satisfying the `UNIQUE(full_path)` constraint,
calling `add_file` twice with the same `full_path` returns the same id
both times, the second call changes nothing, exactly one `files` row
carries that `full_path` afterwards, and no pre-existing row is altered
(first-write-wins). -/
theorem add_file_first_write_wins (db : DB) (d : FileData) (hwf : FilesWF db) :
    (add_file (add_file db d).2 d).1 = (add_file db d).1 ∧
    (add_file (add_file db d).2 d).2 = (add_file db d).2 ∧
    (add_file db d).2.files.countP (fun r => r.data.full_path == d.full_path) = 1 ∧
    (∀ r ∈ db.files, r ∈ (add_file db d).2.files) := by
  cases hfind : db.files.find? (fun r => r.data.full_path == d.full_path) with
  | some r =>
    have hcount : db.files.countP (fun r => r.data.full_path == d.full_path) = 1 := by
      have hpr := List.find?_some hfind
      have hpos : 0 < db.files.countP (fun r => r.data.full_path == d.full_path) :=
        List.countP_pos_iff.mpr ⟨r, List.mem_of_find?_eq_some hfind, hpr⟩
      have hle := hwf d.full_path
      omega
    refine ⟨?_, ?_, ?_, ?_⟩ <;> simp [add_file, hfind, hcount]
  | none =>
    have happ := find?_append_none (p := fun r : FileRow => r.data.full_path == d.full_path)
      hfind [{ id := db.filesSeq, data := d }]
    have hzero : db.files.countP (fun r => r.data.full_path == d.full_path) = 0 :=
      List.countP_eq_zero.mpr (List.find?_eq_none.mp hfind)
    refine ⟨?_, ?_, ?_, ?_⟩
    · simp [add_file, hfind, happ]
    · simp [add_file, hfind, happ]
    · simp [add_file, hfind, List.countP_append, hzero]
    · intro r hr
      simp only [add_file, hfind]
      exact List.mem_append.mpr (Or.inl hr)

def sampleFile : FileData :=
  { filename := "f.c", full_path := "/data/exploits/f.c", file_type := none,
    size := none, modified_date := none, category := some "exploit", processed := false }

theorem add_file_first_write_wins_witness :
    (add_file (add_file DB.empty sampleFile).2 sampleFile).1 =
      (add_file DB.empty sampleFile).1 ∧
    (add_file (add_file DB.empty sampleFile).2 sampleFile).2 =
      (add_file DB.empty sampleFile).2 ∧
    (add_file DB.empty sampleFile).2.files.countP
      (fun r => r.data.full_path == sampleFile.full_path) = 1 ∧
    (∀ r ∈ DB.empty.files, r ∈ (add_file DB.empty sampleFile).2.files) :=
  add_file_first_write_wins DB.empty sampleFile
    (by intro path; simp [FilesWF, DB.empty])

/-- C2: `add_annotation` preserves the at-most-one-row-per
`(file_id, source_index)` invariant; when a matching row already exists
it returns that row's id and leaves the store untouched; and re-running
the same call is a no-op returning the same id (so re-ingesting the same
index files never duplicates annotation rows). -/
theorem add_annotation_no_duplicates (db : DB) (d : AnnData) :
    (AnnWF db → AnnWF ( add_annotation db d).2) ∧
    (AnnWF db → ∀ r ∈ db.annotations, annPred d.file_id d.source_index r = true →
      add_annotation db d = (r.id, db)) ∧
    ( add_annotation ( add_annotation db d).2 d =
      (( add_annotation db d).1, ( add_annotation db d).2)) := by
  refine ⟨?_, ?_, ?_⟩
  · intro hwf
    cases hfind : db.annotations.find? (annPred d.file_id d.source_index) with
    | some r =>
      intro fid si
      simpa [ add_annotation, hfind] using hwf fid si
    | none =>
      intro fid si
      have hzero : db.annotations.countP (annPred d.file_id d.source_index) = 0 :=
        List.countP_eq_zero.mpr (List.find?_eq_none.mp hfind)
      simp only [ add_annotation, hfind]
      rw [List.countP_append]
      by_cases hmatch : annPred fid si { id := db.annotationsSeq, data := d } = true
      · have hfid : d.file_id = fid ∧ d.source_index = si := by
          simpa [annPred] using hmatch
        obtain ⟨h1, h2⟩ := hfid
        subst h1; subst h2
        simp [hzero, hmatch]
      · have hone : ([({ id := db.annotationsSeq, data := d } : AnnRow)]).countP
            (annPred fid si) = 0 := by
          simp only [List.countP_cons, List.countP_nil]
          simp [Bool.not_eq_true] at hmatch
          simp [hmatch]
        rw [hone]
        simpa using hwf fid si
  · intro hwf r hr hmatch
    cases hfind : db.annotations.find? (annPred d.file_id d.source_index) with
    | some r' =>
      have heq : r = r' :=
        countP_le_one_find?_unique (hwf d.file_id d.source_index) hr hmatch hfind
      subst heq
      simp [ add_annotation, hfind]
    | none =>
      exact absurd hmatch (by simpa using List.find?_eq_none.mp hfind r hr)
  · cases hfind : db.annotations.find? (annPred d.file_id d.source_index) with
    | some r => simp [ add_annotation, hfind]
    | none =>
      have happ := find?_append_none (p := annPred d.file_id d.source_index)
        hfind [{ id := db.annotationsSeq, data := d }]
      have hrow : annPred d.file_id d.source_index
          { id := db.annotationsSeq, data := d } = true := by simp [annPred]
      simp [ add_annotation, hfind, happ, hrow]

def sampleAnn : AnnData :=
  { file_id := 1, annotation_date := none, description := "desc",
    source_index := "/data/exploits/index_.txt" }

theorem add_annotation_no_duplicates_witness :
    AnnWF ( add_annotation DB.empty sampleAnn).2 ∧
    ( add_annotation ( add_annotation DB.empty sampleAnn).2 sampleAnn =
      (( add_annotation DB.empty sampleAnn).1, ( add_annotation DB.empty sampleAnn).2)) :=
  ⟨(add_annotation_no_duplicates DB.empty sampleAnn).1
      (by intro fid si; simp [AnnWF, DB.empty]),
   (add_annotation_no_duplicates DB.empty sampleAnn).2.2⟩

theorem add_content_filter_eq (db : DB) (d : ContentData) :
    (add_content db d).2.content.filter (fun r => r.data.file_id == d.file_id) =
      [{ id := db.contentSeq, data := contentStored d }] := by
  simp only [add_content, List.filter_append]
  rw [List.filter_filter]
  simp [contentStored]

/-- C3: a second `add_content` call for the same `file_id` replaces the
content row: afterwards exactly one content row exists for that
`file_id`, it carries the later call's data (the row written by the
first call is gone), and its metadata is the serialized form of the
later call's metadata document. -/
theorem add_content_last_write_wins (db : DB) (d1 d2 : ContentData)
    (hsame : d1.file_id = d2.file_id) :
    ((add_content (add_content db d1).2 d2).2.content.filter
        (fun r => r.data.file_id == d2.file_id)).length = 1 ∧
    ({ id := db.contentSeq, data := contentStored d1 } : ContentRow) ∉
      (add_content (add_content db d1).2 d2).2.content ∧
    (∀ r ∈ (add_content (add_content db d1).2 d2).2.content,
      r.data.file_id = d2.file_id → r.data = contentStored d2) ∧
    (∀ r ∈ (add_content (add_content db d1).2 d2).2.content,
      r.data.file_id = d2.file_id → r.data.metadata = Json.dumps d2.metadata) := by
  have hfe := add_content_filter_eq (add_content db d1).2 d2
  refine ⟨by rw [hfe]; rfl, ?_, ?_, ?_⟩
  · intro hmem
    simp only [add_content] at hmem
    rcases List.mem_append.mp hmem with hmem | hmem
    · have h2 := (List.mem_filter.mp hmem).2
      simp [contentStored, hsame] at h2
    · simp only [List.mem_singleton, ContentRow.mk.injEq] at hmem
      omega
  · intro r hr hid
    have hrf : r ∈ (add_content (add_content db d1).2 d2).2.content.filter
        (fun r => r.data.file_id == d2.file_id) :=
      List.mem_filter.mpr ⟨hr, by simp [hid]⟩
    rw [hfe] at hrf
    simp only [List.mem_singleton] at hrf
    rw [hrf]
  · intro r hr hid
    have hrf : r ∈ (add_content (add_content db d1).2 d2).2.content.filter
        (fun r => r.data.file_id == d2.file_id) :=
      List.mem_filter.mpr ⟨hr, by simp [hid]⟩
    rw [hfe] at hrf
    simp only [List.mem_singleton] at hrf
    rw [hrf]
    rfl

def sampleContent1 : ContentData :=
  { file_id := 1, raw_text := some "raw one", cleaned_text := none,
    metadata := Json.obj [("tags", Json.arr [Json.str "x"])] }

def sampleContent2 : ContentData :=
  { file_id := 1, raw_text := some "raw two", cleaned_text := some "clean",
    metadata := Json.obj [("author", Json.null)] }

theorem add_content_last_write_wins_witness :
    ((add_content (add_content DB.empty sampleContent1).2 sampleContent2).2.content.filter
        (fun r => r.data.file_id == sampleContent2.file_id)).length = 1 ∧
    ({ id := DB.empty.contentSeq, data := contentStored sampleContent1 } : ContentRow) ∉
      (add_content (add_content DB.empty sampleContent1).2 sampleContent2).2.content ∧
    (∀ r ∈ (add_content (add_content DB.empty sampleContent1).2 sampleContent2).2.content,
      r.data.file_id = sampleContent2.file_id → r.data = contentStored sampleContent2) ∧
    (∀ r ∈ (add_content (add_content DB.empty sampleContent1).2 sampleContent2).2.content,
      r.data.file_id = sampleContent2.file_id →
        r.data.metadata = Json.dumps sampleContent2.metadata) :=
  add_content_last_write_wins DB.empty sampleContent1 sampleContent2 rfl

/-! ## Claims about the Parser -/

/-- C4: the index text `File Name: a.bin\nDescription:\nline one\n`
`tags | x, y\n///`, parsed from a fresh parser, yields exactly one entry:
filename `"a.bin"`, description `"line one"`, tags `["x", "y"]`, empty
hashes, and the category derived from the index file's own path. -/
theorem parse_scenario_one_entry (pathStr : String) (pathParts : List String) :
    parse_file (.ok "File Name: a.bin\nDescription:\nline one\ntags | x, y\n///")
        pathStr pathParts =
      { entries := [{ filename := "a.bin", description := "line one",
                      tags := ["x", "y"], systems := [], hashes := [], author := none,
                      category := determine_category pathParts, source_index := pathStr }],
        errors := [] } := rfl

/-- C5: `parse_file` is total (the Lean model is a total function; the
only exception source in the Python body is the read itself, which is
caught).  A read/decoding failure yields zero entries plus a single
error; a block with no `File Name:` line — here a block containing only
`tags | x` — produces no entry and appends one error naming the source
file. -/
theorem parse_file_error_handling :
    (∀ (e pathStr : String) (pathParts : List String),
      parse_file (.error e) pathStr pathParts =
        { entries := [],
          errors := ["Ошибка при чтении файла " ++ pathStr ++ ": " ++ e] }) ∧
    (∀ (pathStr : String) (pathParts : List String),
      parse_file (.ok "tags | x") pathStr pathParts =
        { entries := [],
          errors := ["Пропущена запись без имени файла в " ++ pathStr] }) :=
  ⟨fun _ _ _ => rfl, fun _ _ => rfl⟩

/-- C10: the `in_description` flag is not reset at block boundaries.  In
this two-block input the first block ends while collecting a
description; the second block has no `Description:` line, yet its
leading unrecognized line `stray line` becomes the second entry's
description. -/
theorem description_mode_carries_across_blocks (pathStr : String) (pathParts : List String) :
    (parse_file (.ok "File Name: a\nDescription:\nfirst\n///\nstray line\nFile Name: b\n///")
        pathStr pathParts).entries.map (fun e => (e.filename, e.description)) =
      [("a", "first"), ("b", "stray line")] ∧
    Py.containsSub "\nstray line\nFile Name: b\n" "Description:" = false :=
  ⟨rfl, rfl⟩

theorem processBlock_category (parts : List String) (pathStr : String)
    (acc : List ParsedEntry × List String × Bool) (b : String) :
    ∀ e ∈ (processBlock parts pathStr acc b).1,
      e ∈ acc.1 ∨ e.category = determine_category parts := by
  obtain ⟨res, errs, inDesc⟩ := acc
  intro e he
  simp only [processBlock] at he
  split at he
  · exact Or.inl he
  · split at he
    · rcases List.mem_append.mp he with h | h
      · exact Or.inl h
      · simp only [List.mem_singleton] at h
        subst h
        exact Or.inr rfl
    · exact Or.inl he

theorem foldl_processBlock_category (parts : List String) (pathStr : String) :
    ∀ (blocks : List String) (acc : List ParsedEntry × List String × Bool),
      ∀ e ∈ (blocks.foldl (processBlock parts pathStr) acc).1,
        e ∈ acc.1 ∨ e.category = determine_category parts := by
  intro blocks
  induction blocks with
  | nil => intro acc e he; exact Or.inl he
  | cons b bs ih =>
    intro acc e he
    rcases ih (processBlock parts pathStr acc b) e he with h | h
    · exact processBlock_category parts pathStr acc b e h
    · exact Or.inr h

/-- C6: the Parser's category classification scans the path's segments in
order and, per segment, the rule table in order; the first match wins, a
path with no matching segment yields `"unknown"`, the five example
segments map exactly as the table says, and every entry parsed from a
file carries the category of the file's path — independent of the file's
contents. -/
theorem determine_category_spec :
    (∀ (pre : List String) (s : String) (post : List String) (c : String),
      (∀ t ∈ pre, segCategory t = none) → segCategory s = some c →
      determine_category (pre ++ s :: post) = c) ∧
    (∀ parts : List String, (∀ t ∈ parts, segCategory t = none) →
      determine_category parts = "unknown") ∧
    segCategory "exploits" = some "exploit" ∧
    segCategory "shellcodes" = some "shellcode" ∧
    segCategory "util" = some "tool" ∧
    segCategory "Doc" = some "doc" ∧
    segCategory "systemerror" = some "systemerror" ∧
    (∀ (res : Except String String) (pathStr : String) (parts : List String),
      ∀ e ∈ (parse_file res pathStr parts).entries, e.category = determine_category parts) := by
  refine ⟨?_, ?_, by decide, by decide, by decide, by decide, by decide, ?_⟩
  · intro pre s post c hpre hs
    induction pre with
    | nil => simp [determine_category, hs]
    | cons t pre ih =>
      have ht : segCategory t = none := hpre t (List.mem_cons_self t pre)
      simp only [List.cons_append, determine_category, ht]
      exact ih (fun u hu => hpre u (List.mem_cons_of_mem t hu))
  · intro parts h
    induction parts with
    | nil => rfl
    | cons t rest ih =>
      have ht : segCategory t = none := h t (List.mem_cons_self t rest)
      simp only [determine_category, ht]
      exact ih (fun u hu => h u (List.mem_cons_of_mem t hu))
  · intro res pathStr parts e he
    cases res with
    | error err => simp [parse_file] at he
    | ok content =>
      simp only [parse_file] at he
      rcases foldl_processBlock_category parts pathStr (Py.splitSlashes content)
          ([], [], false) e he with h | h
      · cases h
      · exact h

theorem determine_category_spec_witness :
    determine_category ["home", "exploits", "x"] = "exploit" ∧
    determine_category ["a", "b"] = "unknown" :=
  ⟨determine_category_spec.1 ["home"] "exploits" ["x"] "exploit" (by decide) (by decide),
   determine_category_spec.2.1 ["a", "b"] (by decide)⟩

/-! ## Claims about the Coverage Analyzer's classifier (C8) -/

/-- C8 counterexample: the two classifiers disagree.  On the path segment
`systemerror` the Parser returns `"systemerror"` while the Coverage
Analyzer returns `"error"`; on a segment that merely contains `exploits`
as a substring the Parser returns `"unknown"` while the Coverage
Analyzer substring-matches it to `"exploit"`. -/
theorem cov_category_counterexample :
    cov_determine_category ["systemerror"] ≠ determine_category ["systemerror"] ∧
    cov_determine_category ["systemerror"] = "error" ∧
    determine_category ["systemerror"] = "systemerror" ∧
    cov_determine_category ["myexploitsdir"] ≠ determine_category ["myexploitsdir"] ∧
    cov_determine_category ["myexploitsdir"] = "exploit" ∧
    determine_category ["myexploitsdir"] = "unknown" := by
  decide

theorem covSeg_agree (p : String)
    (hp : ∀ m ∈ covCategoriesTable, Py.containsSub p m.1 = true → m.1 = p) :
    covSegCategory p =
      Option.map (fun c => if c = "systemerror" then "error" else c) (segCategory p) := by
  by_cases h1 : p = "exploits"
  · subst h1; decide
  by_cases h2 : p = "shellcodes"
  · subst h2; decide
  by_cases h3 : p = "util"
  · subst h3; decide
  by_cases h4 : p = "Doc"
  · subst h4; decide
  by_cases h5 : p = "systemerror"
  · subst h5; decide
  have c1 : Py.containsSub p "exploits" = false := by
    cases hb : Py.containsSub p "exploits" with
    | true => exact absurd (hp ("exploits", "exploit") (by decide) hb) (fun he => h1 he.symm)
    | false => rfl
  have c2 : Py.containsSub p "shellcodes" = false := by
    cases hb : Py.containsSub p "shellcodes" with
    | true => exact absurd (hp ("shellcodes", "shellcode") (by decide) hb) (fun he => h2 he.symm)
    | false => rfl
  have c3 : Py.containsSub p "util" = false := by
    cases hb : Py.containsSub p "util" with
    | true => exact absurd (hp ("util", "tool") (by decide) hb) (fun he => h3 he.symm)
    | false => rfl
  have c4 : Py.containsSub p "Doc" = false := by
    cases hb : Py.containsSub p "Doc" with
    | true => exact absurd (hp ("Doc", "doc") (by decide) hb) (fun he => h4 he.symm)
    | false => rfl
  have c5 : Py.containsSub p "systemerror" = false := by
    cases hb : Py.containsSub p "systemerror" with
    | true => exact absurd (hp ("systemerror", "error") (by decide) hb) (fun he => h5 he.symm)
    | false => rfl
  have hcov : covSegCategory p = none := by
    simp [covSegCategory, covCategoriesTable, List.find?_cons, c1, c2, c3, c4, c5]
  have hseg : segCategory p = none := by
    simp [segCategory, categoriesTable, List.find?_cons, List.contains, List.elem,
      h1, h2, h3, h4, h5]
  rw [hcov, hseg]
  rfl

/-- C8 amended: for every index-file path whose segments contain a
marker of the coverage table only when the segment equals that marker,
the Coverage Analyzer's classification agrees with the Parser's, except
that where the Parser returns `"systemerror"` the Coverage Analyzer
returns `"error"`. -/
theorem cov_category_agreement (parts : List String)
    (h : ∀ p ∈ parts, ∀ m ∈ covCategoriesTable, Py.containsSub p m.1 = true → m.1 = p) :
    cov_determine_category parts =
      (if determine_category parts = "systemerror" then "error"
       else determine_category parts) := by
  induction parts with
  | nil => decide
  | cons p rest ih =>
    have hp := h p (List.mem_cons_self p rest)
    have hagree := covSeg_agree p hp
    simp only [cov_determine_category, determine_category]
    cases hs : segCategory p with
    | some c =>
      rw [hs] at hagree
      simp [hagree]
    | none =>
      rw [hs] at hagree
      simp only [hagree, Option.map_none']
      exact ih (fun u hu m hm => h u (List.mem_cons_of_mem p hu) m hm)

theorem cov_category_agreement_witness :
    cov_determine_category ["home", "exploits"] =
      (if determine_category ["home", "exploits"] = "systemerror" then "error"
       else determine_category ["home", "exploits"]) :=
  cov_category_agreement ["home", "exploits"] (by decide)

/-! ## Claims about the Coverage report (C7) -/

/-- An analyzer state reached by the tool's own operations: a manifest of
one path `a`, and one index file naming only `b` (which is not in the
manifest). -/
def covSampleState : CoverageState :=
  process_index_file (load_all_files initCoverage ["a"]) ["idx"] "File Name: b\n///"

/-- C7 counterexample: `indexed_files` is never intersected with the
manifest universe.  With manifest `{a}` and an index file naming only
`b`, no file of the known universe is indexed, yet the reported coverage
is `100`, not `100 * 0 / 1 = 0`. -/
theorem coverage_universe_counterexample :
    (generate_report covSampleState).coverage_percent = 100 ∧
    (covSampleState.all_files.filter
      (fun f => f ∈ covSampleState.indexed_files)).length = 0 ∧
    (generate_report covSampleState).coverage_percent ≠
      100 * ((covSampleState.all_files.filter
        (fun f => f ∈ covSampleState.indexed_files)).length : ℚ) /
        (covSampleState.all_files.length : ℚ) := by
  have hall : covSampleState.all_files.length = 1 := by decide
  have hidx : covSampleState.indexed_files.length = 1 := by decide
  have hf : (covSampleState.all_files.filter
      (fun f => f ∈ covSampleState.indexed_files)).length = 0 := by decide
  have hcov : (generate_report covSampleState).coverage_percent = 100 := by
    simp only [generate_report, hall, hidx]
    norm_num
  refine ⟨hcov, hf, ?_⟩
  rw [hcov, hf, hall]
  norm_num

theorem setAdd_nodup {s : List String} (h : s.Nodup) (x : String) : (setAdd s x).Nodup := by
  unfold setAdd
  split
  · exact h
  · next hx =>
    refine List.Nodup.append h (List.nodup_singleton x) ?_
    intro a ha hax
    rw [List.mem_singleton] at hax
    subst hax
    exact hx ha

theorem foldl_setAdd_nodup (lines : List String) :
    ∀ s : List String, s.Nodup →
      (lines.foldl
        (fun s line =>
          let fp := Py.strip line
          if Py.isEmptyStr fp then s else setAdd s fp)
        s).Nodup := by
  induction lines with
  | nil => intro s hs; exact hs
  | cons l ls ih =>
    intro s hs
    simp only [List.foldl_cons]
    apply ih
    dsimp only
    split
    · exact hs
    · exact setAdd_nodup hs _

theorem foldl_cov_nodup (category : String) (blocks : List String) :
    ∀ st : CoverageState, st.indexed_files.Nodup →
      ((blocks.foldl
        (fun st entry =>
          if Py.isEmptyStr (Py.strip entry) then st
          else
            match covFindFileName (Py.split '\n' entry) with
            | some filename =>
              { st with indexed_files := setAdd st.indexed_files filename,
                        categories := bump st.categories category }
            | none => st)
        st).indexed_files).Nodup := by
  induction blocks with
  | nil => intro st h; exact h
  | cons b bs ih =>
    intro st h
    simp only [List.foldl_cons]
    apply ih
    dsimp only
    split
    · exact h
    · split
      · exact setAdd_nodup h _
      · exact h

/-- C7 amended: the reported coverage percentage is exactly
`100 * indexed / total` (and `0`, not an error, when total is `0`), and
the missing count is `total - indexed`, where `total` counts the
distinct manifest paths and `indexed` counts the distinct filenames
extracted from the index files' `File Name:` lines — without restricting
them to the manifest universe.  The last two conjuncts show both sets
stay duplicate-free under the tool's own operations. -/
theorem coverage_report_spec :
    (∀ st : CoverageState,
      (generate_report st).total_files = st.all_files.length ∧
      (generate_report st).indexed_files = st.indexed_files.length ∧
      (st.all_files.length = 0 → (generate_report st).coverage_percent = 0) ∧
      (0 < st.all_files.length →
        (generate_report st).coverage_percent =
          100 * (st.indexed_files.length : ℚ) / (st.all_files.length : ℚ)) ∧
      (generate_report st).missing_files =
        (st.all_files.length : Int) - (st.indexed_files.length : Int)) ∧
    (∀ (st : CoverageState) (lines : List String),
      st.all_files.Nodup → (load_all_files st lines).all_files.Nodup) ∧
    (∀ (st : CoverageState) (parts : List String) (content : String),
      st.indexed_files.Nodup → (process_index_file st parts content).indexed_files.Nodup) := by
  refine ⟨?_, ?_, ?_⟩
  · intro st
    refine ⟨rfl, rfl, ?_, ?_, rfl⟩
    · intro h0
      simp [generate_report, h0]
    · intro hpos
      simp only [generate_report, if_pos hpos]
      rw [div_mul_eq_mul_div, mul_comm]
  · intro st lines h
    exact foldl_setAdd_nodup lines st.all_files h
  · intro st parts content h
    simp only [process_index_file]
    exact foldl_cov_nodup (cov_determine_category parts) (Py.splitSlashes content) st h

theorem coverage_report_spec_witness :
    (generate_report
        { all_files := ["a", "b"], indexed_files := ["a"], categories := [] }).coverage_percent =
      100 * ((({ all_files := ["a", "b"], indexed_files := ["a"], categories := [] } :
          CoverageState)).indexed_files.length : ℚ) /
        ((({ all_files := ["a", "b"], indexed_files := ["a"], categories := [] } :
          CoverageState)).all_files.length : ℚ) ∧
    (load_all_files initCoverage ["x", "x", ""]).all_files.Nodup :=
  ⟨(coverage_report_spec.1
      { all_files := ["a", "b"], indexed_files := ["a"], categories := [] }).2.2.2.1
      (by decide),
   coverage_report_spec.2.1 initCoverage ["x", "x", ""] (by decide)⟩

/-! ## Claims about the Stats Aggregator (C9) -/

theorem bump_total (c : List (String × Nat)) (k : String) :
    counterTotal (bump c k) = counterTotal c + 1 := by
  induction c with
  | nil => rfl
  | cons p rest ih =>
    simp only [bump]
    split
    · simp only [counterTotal, List.map_cons, List.sum_cons]
      omega
    · simp only [counterTotal, List.map_cons, List.sum_cons] at ih ⊢
      omega

theorem bump_get_same (c : List (String × Nat)) (k : String) :
    counterGet (bump c k) k = counterGet c k + 1 := by
  induction c with
  | nil => simp [bump, counterGet]
  | cons p rest ih =>
    simp only [bump]
    split
    · next hpk => simp [counterGet, hpk]
    · next hpk => simp [counterGet, hpk, ih]

/-- C9 counterexample: an entry with no `metadata` key and the filename
`noext` increments neither the category nor the author counter (the
claim demands exactly one increment per entry with missing values
bucketed as `"unknown"`), and its empty extension is counted under
`"no_extension"`, not `"unknown"`. -/
theorem add_entry_unknown_counterexample :
    (add_entry initStats { metadata := none, filename := some "noext" }).categories = [] ∧
    (add_entry initStats { metadata := none, filename := some "noext" }).authors = [] ∧
    (add_entry initStats { metadata := none, filename := some "noext" }).file_types =
      [("no_extension", 1)] ∧
    counterGet (add_entry initStats { metadata := none, filename := some "noext" }).file_types
      "unknown" = 0 := by
  decide

/-- C9 amended: per `add_entry` call, the category counter is bumped
exactly once iff the entry's metadata carries a `category` key (likewise
author and, for the file-extension counter, a `filename` key); a present
but falsy (`None`/empty) category or author is bucketed as `"unknown"`,
while an empty file extension is bucketed as `"no_extension"`. -/
theorem add_entry_counters (st : Stats) (e : StatsEntry) :
    counterTotal (add_entry st e).categories =
      counterTotal st.categories +
        (if (e.metadata.bind (fun m => m.category)).isSome then 1 else 0) ∧
    counterTotal (add_entry st e).authors =
      counterTotal st.authors +
        (if (e.metadata.bind (fun m => m.author)).isSome then 1 else 0) ∧
    counterTotal (add_entry st e).file_types =
      counterTotal st.file_types + (if e.filename.isSome then 1 else 0) ∧
    (∀ v, e.metadata.bind (fun m => m.category) = some v → (v = none ∨ v = some "") →
      counterGet (add_entry st e).categories "unknown" =
        counterGet st.categories "unknown" + 1) ∧
    (∀ v, e.metadata.bind (fun m => m.author) = some v → (v = none ∨ v = some "") →
      counterGet (add_entry st e).authors "unknown" =
        counterGet st.authors "unknown" + 1) ∧
    (∀ fn, e.filename = some fn → pySuffix fn = "" →
      counterGet (add_entry st e).file_types "no_extension" =
        counterGet st.file_types "no_extension" + 1) := by
  obtain ⟨md, fn⟩ := e
  refine ⟨?_, ?_, ?_, ?_, ?_, ?_⟩
  · rcases md with _ | ⟨mc, mt, ms, ma⟩
    · cases fn <;> simp [add_entry, bump_total]
    · cases mc <;> cases mt <;> cases ms <;> cases ma <;> cases fn <;>
        simp [add_entry, bump_total]
  · rcases md with _ | ⟨mc, mt, ms, ma⟩
    · cases fn <;> simp [add_entry, bump_total]
    · cases mc <;> cases mt <;> cases ms <;> cases ma <;> cases fn <;>
        simp [add_entry, bump_total]
  · rcases md with _ | ⟨mc, mt, ms, ma⟩
    · cases fn <;> simp [add_entry, bump_total]
    · cases mc <;> cases mt <;> cases ms <;> cases ma <;> cases fn <;>
        simp [add_entry, bump_total]
  · intro v hv hfal
    rcases md with _ | ⟨mc, mt, ms, ma⟩
    · cases hv
    · rcases mc with _ | vc
      · cases hv
      · simp only [Option.bind_some] at hv
        injection hv with hv'
        subst hv'
        have hu : orUnknown vc = "unknown" := by
          rcases hfal with rfl | rfl <;> rfl
        cases mt <;> cases ms <;> cases ma <;> cases fn <;>
          simp [add_entry, hu, bump_get_same]
  · intro v hv hfal
    rcases md with _ | ⟨mc, mt, ms, ma⟩
    · cases hv
    · rcases ma with _ | va
      · cases hv
      · simp only [Option.bind_some] at hv
        injection hv with hv'
        subst hv'
        have hu : orUnknown va = "unknown" := by
          rcases hfal with rfl | rfl <;> rfl
        cases mc <;> cases mt <;> cases ms <;> cases fn <;>
          simp [add_entry, hu, bump_get_same]
  · intro f hf hsuf
    subst hf
    have hb : extBucket f = "no_extension" := by
      simp [extBucket, hsuf, Py.isEmptyStr]
    rcases md with _ | ⟨mc, mt, ms, ma⟩
    · simp [add_entry, hb, bump_get_same]
    · cases mc <;> cases mt <;> cases ms <;> cases ma <;>
        simp [add_entry, hb, bump_get_same]

def sampleStatsEntry : StatsEntry :=
  { metadata := some { category := some none, tags := some [], systems := some [],
                       author := some (some "") },
    filename := some "noext" }

theorem add_entry_counters_witness :
    counterGet (add_entry initStats sampleStatsEntry).categories "unknown" =
      counterGet initStats.categories "unknown" + 1 ∧
    counterGet (add_entry initStats sampleStatsEntry).authors "unknown" =
      counterGet initStats.authors "unknown" + 1 ∧
    counterGet (add_entry initStats sampleStatsEntry).file_types "no_extension" =
      counterGet initStats.file_types "no_extension" + 1 :=
  ⟨(add_entry_counters initStats sampleStatsEntry).2.2.2.1 none rfl (Or.inl rfl),
   (add_entry_counters initStats sampleStatsEntry).2.2.2.2.1 (some "") rfl (Or.inr rfl),
   (add_entry_counters initStats sampleStatsEntry).2.2.2.2.2 "noext" rfl (by decide)⟩

end SecurityDataset
